import Mathlib

/-!
Verification of the feed-synchronization pipeline of `rss-sync-service.js`
(class `RSSyncService`).

The JavaScript source is shallowly embedded: the pure normalizer helpers
(`cleanContent`, `extractSummary`, `extractCity`) become pure Lean functions
on `String`/`List Char`; the stateful orchestrator (`syncAll`, `syncSource`,
`processArticle`, `log`) becomes explicit state passing over `SyncState`,
with the external collaborators (feed fetch, store insert failures) supplied
by an `Env` record and the externally visible operations (fetch / store
lookup / store insert, plus the completion of the per-item mapping step)
reported as an `Op` trace.

JavaScript-specific conventions used by the source are modelled explicitly:
an `Option String` whose value is `none` or `some ""` is "falsy" (`!x`,
`x || y`), a missing `title` is `none` (so `title.trim()` on it throws), and
thrown exceptions are `Except.error`.  Machine details that the claims do not
touch (wall-clock timestamp strings, Firestore server timestamps, the DOM
status widget `updateUI`, the optional global `loadNews` callback) are
reduced to a logical clock, omitted fields, and no-ops respectively.
-/

namespace RSSync

/-- One feed descriptor of `this.sources` (line 8).  The JS field `type` is
named `sourceType` here because `type` is a Lean keyword. -/
structure Source where
  url : String
  sourceType : String
  establishmentType : String
deriving DecidableEq, Repr

/-- One entry of `this.logs` (line 26).  The JS field `type` is named
`severity`; the `toLocaleString` timestamp is modelled by a logical clock. -/
structure LogEntry where
  time : Nat
  message : String
  severity : String
deriving DecidableEq, Repr

/-- A raw feed item as delivered by the rss2json collaborator.  `title` is
optional: a missing title makes `article.title.trim()` (line 165) throw. -/
structure Article where
  title : Option String
  link : String
  content : Option String
  description : Option String
  pubDate : String
  thumbnail : Option String
  enclosureLink : Option String
deriving DecidableEq, Repr

/-- The persisted record built at lines 164-194.  The JS field `type` is
named `articleType`.  The three Firestore server-timestamp fields and the
date parsing of `publishedAt` are opaque to the pipeline and omitted /
kept as the raw string. -/
structure NewsData where
  title : String
  content : String
  summary : String
  url : String
  articleType : String
  establishmentType : String
  status : String
  featured : Bool
  author : String
  source : String
  pubDate : String
  views : Nat
  tags : List String
  imageUrl : Option String
  city : Option String
deriving DecidableEq, Repr

/-- JS truthiness of an optional string: `undefined` and `""` are falsy. -/
def jsTruthy : Option String → Bool
  | none => false
  | some s => !(s == "")

/-- JS `a || b` on optional strings. -/
def jsOr (a b : Option String) : Option String :=
  if jsTruthy a then a else b

/-- JS string interpolation of a possibly-undefined value. -/
def jsShow : Option String → String
  | none => "undefined"
  | some s => s

/-- JS `s.substring(0, n)`. -/
def strTake (n : Nat) (s : String) : String :=
  String.mk (s.data.take n)

/-! ### Content Normalizer (`cleanContent`, `extractSummary`, `extractCity`) -/

/-- Case-insensitive character comparison, as the regex `i` flag folds ASCII
letter case. -/
def ciEq (a b : Char) : Bool :=
  a == b || (a.isUpper && b.isLower && a.toNat + 32 == b.toNat)
         || (b.isUpper && a.isLower && b.toNat + 32 == a.toNat)

/-- Does `pat` match case-insensitively at the head of the text? -/
def ciStarts : List Char → List Char → Bool
  | [], _ => true
  | _ :: _, [] => false
  | p :: ps, c :: cs => ciEq p c && ciStarts ps cs

/-- Suffix immediately after the first case-insensitive occurrence of `pat`,
or `none` when `pat` does not occur. -/
def findCI (pat : List Char) : List Char → Option (List Char)
  | [] => if ciStarts pat [] then some [] else none
  | c :: cs =>
    if ciStarts pat (c :: cs) then some (List.drop pat.length (c :: cs))
    else findCI pat cs

/-- JS regex `\w` over ASCII, used for the `\b` after `<script`/`<style`. -/
def isWordChar (c : Char) : Bool :=
  c.isAlpha || c.isDigit || c == '_'

/-- Global replacement of the regex `openTag\b[^<]*(?:(?!closeTag)<[^<]*)*closeTag`
by the empty string: every span from an occurrence of `openTag` (followed by a
word boundary when `wordBoundary` is set) to the first subsequent `closeTag` is
deleted; an unterminated `openTag` is left in place, matching the regex, which
fails at that position and resumes scanning at the next character.  The fuel
argument (always started at the list length, which each step strictly
consumes) keeps the recursion structural. -/
def removeBlocksAux (openTag closeTag : List Char) (wordBoundary : Bool) :
    Nat → List Char → List Char
  | 0, l => l
  | _ + 1, [] => []
  | fuel + 1, c :: cs =>
    if ciStarts openTag (c :: cs) then
      let rest0 := List.drop openTag.length (c :: cs)
      let boundaryOk :=
        if wordBoundary then
          match rest0 with
          | [] => true
          | d :: _ => !(isWordChar d)
        else true
      if boundaryOk then
        match findCI closeTag rest0 with
        | some rest => removeBlocksAux openTag closeTag wordBoundary fuel rest
        | none => c :: removeBlocksAux openTag closeTag wordBoundary fuel cs
      else c :: removeBlocksAux openTag closeTag wordBoundary fuel cs
    else c :: removeBlocksAux openTag closeTag wordBoundary fuel cs

def removeBlocks (openTag closeTag : List Char) (wordBoundary : Bool)
    (l : List Char) : List Char :=
  removeBlocksAux openTag closeTag wordBoundary l.length l

def scriptOpen : List Char := "<script".data
def scriptClose : List Char := "</script>".data
def styleOpen : List Char := "<style".data
def styleClose : List Char := "</style>".data
def commentOpen : List Char := "<!--".data
def commentClose : List Char := "-->".data

/-- Suffix immediately after the first occurrence of `ch`, or `none`. -/
def dropThroughGt : List Char → Option (List Char)
  | [] => none
  | c :: cs => if c == '>' then some cs else dropThroughGt cs

/-- Global replacement of `<[^>]*>` by the empty string: every span from a
`<` to the next `>` is deleted; a `<` with no later `>` stays, as the regex
fails there. -/
def stripTagsAux : Nat → List Char → List Char
  | 0, l => l
  | _ + 1, [] => []
  | fuel + 1, c :: cs =>
    if c == '<' then
      match dropThroughGt cs with
      | some rest => stripTagsAux fuel rest
      | none => c :: stripTagsAux fuel cs
    else c :: stripTagsAux fuel cs

def stripTags (l : List Char) : List Char := stripTagsAux l.length l

/-- JS `String.prototype.trim`, modelled on the character list: strip
leading and trailing whitespace. -/
def trimChars (l : List Char) : List Char :=
  ((l.dropWhile Char.isWhitespace).reverse.dropWhile Char.isWhitespace).reverse

/-- Body of `cleanContent` (line 208) on a truthy string: remove script
blocks, style blocks and comment blocks, then trim. -/
def cleanContentStr (s : String) : String :=
  String.mk (trimChars (removeBlocks commentOpen commentClose false
    (removeBlocks styleOpen styleClose true
      (removeBlocks scriptOpen scriptClose true s.data))))

/-- `cleanContent(content)` (line 208). -/
def cleanContent : Option String → String
  | none => "Contenu à venir"
  | some s => if s = "" then "Contenu à venir" else cleanContentStr s

/-- JS `truncated.lastIndexOf(' ')`, with `none` for `-1`. -/
def lastSpaceIdx : List Char → Option Nat
  | [] => none
  | c :: cs =>
    match lastSpaceIdx cs with
    | some i => some (i + 1)
    | none => if c == ' ' then some 0 else none

/-- `extractSummary(content)` (line 219), with the intermediate
`textContent` string carried as its character list. -/
def extractSummary : Option String → String
  | none => "Résumé à venir"
  | some s =>
    if s = "" then "Résumé à venir" else
    let textContent := trimChars (stripTags s.data)
    if textContent.length ≤ 200 then String.mk textContent
    else
      let truncated := textContent.take 200
      match lastSpaceIdx truncated with
      | some i =>
        if 150 < i then String.mk (truncated.take i) ++ "..."
        else String.mk truncated ++ "..."
      | none => String.mk truncated ++ "..."

/-- The fixed gazetteer of lines 238-242, in declaration order. -/
def cities : List String :=
  ["Paris", "Lyon", "Marseille", "Toulouse", "Nice", "Nantes", "Strasbourg",
   "Montpellier", "Bordeaux", "Lille", "Rennes", "Reims", "Le Havre",
   "Saint-Étienne", "Toulon", "Angers", "Grenoble", "Dijon", "Nîmes",
   "Aix-en-Provence"]

/-- JS `hay.includes(needle)`: literal, case-sensitive substring test. -/
def containsSub (needle : List Char) : List Char → Bool
  | [] => needle.isEmpty
  | c :: cs => needle.isPrefixOf (c :: cs) || containsSub needle cs

/-- `extractCity(content)` (line 234). -/
def extractCity : Option String → Option String
  | none => none
  | some s =>
    if s = "" then none else
    let textContent := stripTags s.data
    cities.find? (fun city => containsSub city.data textContent)

/-! ### Orchestrator state, environment and operation trace -/

/-- Mutable service state: `this.logs`, `this.isRunning`, the external
`news` collection, and the logical clock feeding log timestamps. -/
structure SyncState where
  logs : List LogEntry
  isRunning : Bool
  store : List NewsData
  clock : Nat
deriving DecidableEq, Repr

/-- External collaborators: the rss2json fetch (any HTTP, JSON or RSS-status
failure collapses to `Except.error`) and whether `db.collection.add` fails
for a given article link. -/
structure Env where
  fetchFeed : String → Except String (List Article)
  insertFails : String → Bool

/-- Externally visible steps, in execution order: a feed fetch, a store
lookup by `url`, the completion of the per-item mapping step, and a store
insert attempt. -/
inductive Op where
  | fetch (url : String)
  | lookup (url : String)
  | map (url : String)
  | insert (url : String)
deriving DecidableEq, Repr

/-- `log(message, type)` (line 25): prepend the entry, evict the oldest one
when the buffer exceeds 100 entries. -/
def log (st : SyncState) (message severity : String) : SyncState :=
  let entry : LogEntry := { time := st.clock, message := message, severity := severity }
  let ls := entry :: st.logs
  let ls := if 100 < ls.length then ls.dropLast else ls
  { st with logs := ls, clock := st.clock + 1 }

/-- The fresh service of the constructor (line 7), over a given external
store. -/
def initState (store : List NewsData) : SyncState :=
  { logs := [], isRunning := false, store := store, clock := 0 }

def titleErrorMsg : String := "article.title is undefined"

def insertErrorMsg : String := "insert failed"

/-- The record built at lines 160-194 for an article whose `title` is
present (`t`). -/
def mapArticle (article : Article) (source : Source) (t : String) : NewsData :=
  let cc := cleanContent (jsOr article.content article.description)
  let summary := extractSummary (jsOr article.description (some cc))
  { title := String.mk (trimChars t.data)
    content := cc
    summary := summary
    url := article.link
    articleType := source.sourceType
    establishmentType := source.establishmentType
    status := "published"
    featured := false
    author := "La Revue"
    source := source.url
    pubDate := article.pubDate
    views := 0
    tags := ["actualité", source.sourceType, "wordpress"]
    imageUrl :=
      if jsTruthy article.thumbnail then article.thumbnail
      else if jsTruthy article.enclosureLink then article.enclosureLink
      else none
    city := extractCity (some cc) }

/-- `processArticle(article, source)` (line 146): look the link up in the
store first; if present, return `false` untouched; otherwise map the item
and insert it.  A missing title or a failing insert is logged
(`❌ Erreur traitement article`) and rethrown, as in the `catch` of
line 202. -/
def processArticle (env : Env) (st : SyncState) (article : Article)
    (source : Source) : SyncState × List Op × Except String Bool :=
  let existing := st.store.filter (fun r => r.url == article.link)
  if existing.isEmpty then
    match article.title with
    | none =>
      let st := log st ("❌ Erreur traitement article: " ++ titleErrorMsg) "error"
      (st, [Op.lookup article.link], Except.error titleErrorMsg)
    | some t =>
      let newsData := mapArticle article source t
      if env.insertFails article.link then
        let st := log st ("❌ Erreur traitement article: " ++ insertErrorMsg) "error"
        (st, [Op.lookup article.link, Op.map article.link, Op.insert article.link],
          Except.error insertErrorMsg)
      else
        let st := { st with store := st.store ++ [newsData] }
        let st := log st ("✅ Article ajouté: \"" ++ strTake 50 t ++ "...\"") "success"
        (st, [Op.lookup article.link, Op.map article.link, Op.insert article.link],
          Except.ok true)
  else
    (st, [Op.lookup article.link], Except.ok false)

/-- The per-article loop of `syncSource` (lines 126-134): a throwing item is
caught and logged (`❌ Erreur article "title": msg`), and the loop continues;
`added`/`processed` are incremented only on the success path. -/
def syncItems (env : Env) (source : Source) :
    List Article → SyncState → Nat → Nat → SyncState × List Op × Nat × Nat
  | [], st, added, processed => (st, [], added, processed)
  | article :: rest, st, added, processed =>
    let r := processArticle env st article source
    match r.2.2 with
    | Except.ok wasAdded =>
      let rr := syncItems env source rest r.1
        (if wasAdded then added + 1 else added) (processed + 1)
      (rr.1, r.2.1 ++ rr.2.1, rr.2.2)
    | Except.error e =>
      let st2 := log r.1 ("❌ Erreur article \"" ++ jsShow article.title ++ "\": " ++ e) "error"
      let rr := syncItems env source rest st2 added processed
      (rr.1, r.2.1 ++ rr.2.1, rr.2.2)

/-- `syncSource(source)` (line 102): fetch the feed, process every item,
return `{added, processed}`; a fetch failure is logged
(`❌ Erreur source ...`) and rethrown. -/
def syncSource (env : Env) (st : SyncState) (source : Source) :
    SyncState × List Op × Except String (Nat × Nat) :=
  let st := log st ("📥 Récupération du flux: " ++ source.sourceType) "info"
  match env.fetchFeed source.url with
  | Except.error e =>
    let st := log st ("❌ Erreur source " ++ source.sourceType ++ ": " ++ e) "error"
    (st, [Op.fetch source.url], Except.error e)
  | Except.ok items =>
    let st := log st ("📊 " ++ toString items.length ++ " articles trouvés pour "
      ++ source.sourceType) "info"
    let rr := syncItems env source items st 0 0
    let st := log rr.1 ("✅ " ++ source.sourceType ++ ": " ++ toString rr.2.2.1
      ++ " nouveaux / " ++ toString rr.2.2.2 ++ " traités") "info"
    (st, Op.fetch source.url :: rr.2.1, Except.ok rr.2.2)

/-- The static source registry of lines 8-19. -/
def hotelSource : Source :=
  { url := "https://larevuedeshotels.com/feed", sourceType := "hotel",
    establishmentType := "hotels" }

def restaurantSource : Source :=
  { url := "https://larevuedesrestaurants.com/feed", sourceType := "restaurant",
    establishmentType := "restaurants" }

def sources : List Source := [hotelSource, restaurantSource]

/-- The `for (const source of this.sources)` loop of lines 77-82: a source
failure propagates immediately, aborting the remaining sources. -/
def syncSources (env : Env) :
    List Source → SyncState → Nat → Nat → SyncState × List Op × Except String (Nat × Nat)
  | [], st, ta, tp => (st, [], Except.ok (ta, tp))
  | source :: rest, st, ta, tp =>
    let st := log st ("📡 Traitement de: " ++ source.url) "info"
    let r := syncSource env st source
    match r.2.2 with
    | Except.error e => (r.1, r.2.1, Except.error e)
    | Except.ok (a, p) =>
      let rr := syncSources env rest r.1 (ta + a) (tp + p)
      (rr.1, r.2.1 ++ rr.2.1, rr.2.2)

/-- `syncAll()` (line 64).  An already-running service logs one warning and
returns `undefined` (`Except.ok none`) with no further effect; otherwise the
flag is raised, all sources are processed, and the `finally` of line 94
lowers the flag on both the success and the failure path.  The optional
global `loadNews` callback and `updateUI` are display collaborators with no
effect on this state. -/
def syncAll (env : Env) (st : SyncState) :
    SyncState × List Op × Except String (Option (Nat × Nat)) :=
  if st.isRunning then
    let st := log st "❌ Synchronisation déjà en cours" "warning"
    (st, [], Except.ok none)
  else
    let st := { st with isRunning := true }
    let st := log st "🚀 Début de la synchronisation RSS globale" "info"
    let r := syncSources env sources st 0 0
    match r.2.2 with
    | Except.ok (ta, tp) =>
      let st := log r.1 ("✅ Synchronisation terminée: " ++ toString ta
        ++ " nouveaux articles sur " ++ toString tp ++ " traités") "success"
      let st := { st with isRunning := false }
      (st, r.2.1, Except.ok (some (ta, tp)))
    | Except.error e =>
      let st := log r.1 ("❌ Erreur globale: " ++ e) "error"
      let st := { st with isRunning := false }
      (st, r.2.1, Except.error e)

/-- `getLogs(limit)` (line 297). -/
def getLogs (st : SyncState) (limit : Nat) : List LogEntry :=
  st.logs.take limit

/-- `clearLogs()` (line 301): empty the buffer, then record the clear. -/
def clearLogs (st : SyncState) : SyncState :=
  log { st with logs := [] } "🗑️ Logs supprimés" "info"

/-! ### Event-log interface runs (for the ring-buffer invariant) -/

/-- An externally driven sequence of Event Log operations: `record` is a
`log` call, `query` a `getLogs` call, `clear` a `clearLogs` call. -/
inductive LogOp where
  | record (message severity : String)
  | query (limit : Nat)
  | clear
deriving DecidableEq, Repr

def runLogOp (st : SyncState) : LogOp → SyncState
  | LogOp.record m sev => log st m sev
  | LogOp.query _ => st
  | LogOp.clear => clearLogs st

def runLogOps : List LogOp → SyncState → SyncState
  | [], st => st
  | op :: ops, st => runLogOps ops (runLogOp st op)

/-- Specification-side history: the unbounded, newest-first list of every
entry recorded since the last `clear` (the clear itself records one entry),
together with the clock.  The buffer is meant to hold its 100 newest
entries. -/
def histStep : Nat × List LogEntry → LogOp → Nat × List LogEntry
  | (clk, h), LogOp.record m sev =>
    (clk + 1, { time := clk, message := m, severity := sev } :: h)
  | (clk, h), LogOp.query _ => (clk, h)
  | (clk, _), LogOp.clear =>
    (clk + 1, [{ time := clk, message := "🗑️ Logs supprimés", severity := "info" }])

def histRun : List LogOp → Nat × List LogEntry → Nat × List LogEntry
  | [], p => p
  | op :: ops, p => histRun ops (histStep p op)

/-! ### Basic `log` lemmas -/

theorem log_isRunning (st : SyncState) (m sev : String) :
    (log st m sev).isRunning = st.isRunning := by
  simp [log]

theorem log_store (st : SyncState) (m sev : String) :
    (log st m sev).store = st.store := by
  simp [log]

theorem log_clock (st : SyncState) (m sev : String) :
    (log st m sev).clock = st.clock + 1 := by
  simp [log]

theorem log_logs_head (st : SyncState) (m sev : String) :
    (log st m sev).logs.head? =
      some { time := st.clock, message := m, severity := sev } := by
  unfold log
  by_cases h : 100 < (({ time := st.clock, message := m, severity := sev } : LogEntry)
      :: st.logs).length
  · simp only [h, if_true]
    have hne : st.logs ≠ [] := by
      intro hnil
      rw [hnil] at h
      simp at h
    rw [List.dropLast_cons_of_ne_nil hne]
    simp
  · have h' : ¬ 100 < st.logs.length + 1 := by simpa using h
    simp [h']

/-- One `log` call maps a buffer equal to `H.take 100` to the buffer
`(e :: H).take 100`. -/
theorem log_logs_take (st : SyncState) (m sev : String) (H : List LogEntry)
    (hlogs : st.logs = H.take 100) :
    (log st m sev).logs =
      (({ time := st.clock, message := m, severity := sev } : LogEntry) :: H).take 100 := by
  unfold log
  simp only [hlogs]
  by_cases h : 100 ≤ H.length
  · have hlen : (H.take 100).length = 100 := by
      simp [List.length_take]
      omega
    have hcond : 100 < (({ time := st.clock, message := m, severity := sev } : LogEntry)
        :: H.take 100).length := by
      simp [hlen]
    simp only [hcond, if_true]
    rw [List.dropLast_eq_take]
    have h1 : (({ time := st.clock, message := m, severity := sev } : LogEntry)
        :: H.take 100).length - 1 = 100 := by simp [hlen]
    rw [h1]
    rw [List.take_cons (by omega)]
    rw [List.take_cons (by omega)]
    simp [List.take_take]
  · push_neg at h
    have htake : H.take 100 = H := List.take_of_length_le (by omega)
    have hcond : ¬ 100 < (({ time := st.clock, message := m, severity := sev } : LogEntry)
        :: H.take 100).length := by
      simp [htake]
      omega
    simp only [hcond, if_false]
    rw [htake, List.take_of_length_le (by simp; omega)]

theorem log_logs_length (st : SyncState) (m sev : String) (H : List LogEntry)
    (hlogs : st.logs = H.take 100) :
    (log st m sev).logs.length ≤ 100 := by
  rw [log_logs_take st m sev H hlogs]
  simp [List.length_take]

/-! ### C2 : single-flight rejection -/

/-- C2: when `isRunning` is true, `syncAll` raises no exception
(`Except.ok none`, i.e. the JS `return` of `undefined`), emits exactly the
one warning event `❌ Synchronisation déjà en cours` (the whole state change
is that single `log` call), performs no fetch, lookup or insert (empty
operation trace), returns no run totals, and leaves `isRunning` and the
store unchanged. -/
theorem c2_single_flight (env : Env) (st : SyncState) (h : st.isRunning = true) :
    syncAll env st = (log st "❌ Synchronisation déjà en cours" "warning", [], Except.ok none) ∧
    (syncAll env st).2.1 = [] ∧
    (syncAll env st).2.2 = Except.ok none ∧
    (syncAll env st).1.isRunning = st.isRunning ∧
    (syncAll env st).1.store = st.store ∧
    (syncAll env st).1.logs.head? =
      some { time := st.clock, message := "❌ Synchronisation déjà en cours",
             severity := "warning" } := by
  have hmain : syncAll env st =
      (log st "❌ Synchronisation déjà en cours" "warning", [], Except.ok none) := by
    simp [syncAll, h]
  refine ⟨hmain, ?_, ?_, ?_, ?_, ?_⟩
  · rw [hmain]
  · rw [hmain]
  · rw [hmain, log_isRunning]
  · rw [hmain, log_store]
  · rw [hmain]
    exact log_logs_head st _ _

/-- Witness for C2 at a concrete running state. -/
theorem c2_single_flight_witness :
    ({ logs := [], isRunning := true, store := [], clock := 0 } : SyncState).isRunning = true ∧
    (syncAll { fetchFeed := fun _ => Except.ok [], insertFails := fun _ => false }
        { logs := [], isRunning := true, store := [], clock := 0 }).2.1 = [] ∧
    (syncAll { fetchFeed := fun _ => Except.ok [], insertFails := fun _ => false }
        { logs := [], isRunning := true, store := [], clock := 0 }).2.2 = Except.ok none :=
  ⟨by decide,
   (c2_single_flight { fetchFeed := fun _ => Except.ok [], insertFails := fun _ => false }
      { logs := [], isRunning := true, store := [], clock := 0 } (by decide)).2.1,
   (c2_single_flight { fetchFeed := fun _ => Except.ok [], insertFails := fun _ => false }
      { logs := [], isRunning := true, store := [], clock := 0 } (by decide)).2.2.1⟩

/-! ### C9 : Event Log ring-buffer invariant -/

theorem runLogOps_invariant (ops : List LogOp) (st : SyncState) (clk : Nat)
    (H : List LogEntry) (hlogs : st.logs = H.take 100) (hclk : st.clock = clk) :
    (runLogOps ops st).logs = (histRun ops (clk, H)).2.take 100 ∧
    (runLogOps ops st).clock = (histRun ops (clk, H)).1 := by
  induction ops generalizing st clk H with
  | nil => exact ⟨hlogs, hclk⟩
  | cons op ops ih =>
    cases op with
    | record m sev =>
      refine ih (log st m sev) (clk + 1)
          ({ time := clk, message := m, severity := sev } :: H) ?_ ?_
      · rw [← hclk]
        exact log_logs_take st m sev H hlogs
      · rw [log_clock, hclk]
    | query n => exact ih st clk H hlogs hclk
    | clear =>
      refine ih (clearLogs st) (clk + 1)
          [{ time := clk, message := "🗑️ Logs supprimés", severity := "info" }] ?_ ?_
      · have : (clearLogs st).logs =
            [{ time := st.clock, message := "🗑️ Logs supprimés", severity := "info" }] := by
          simp [clearLogs, log]
        rw [this, hclk]
        rfl
      · simp [clearLogs, log, hclk]

/-- C9: starting from the fresh service, after any sequence of
record/query/clear operations the buffer holds at most 100 entries, and is
exactly the 100 most recent entries of the recorded history, newest first
(each `record` prepends; exceeding the capacity of 100 evicts the oldest). -/
theorem c9_ring_buffer (ops : List LogOp) (store0 : List NewsData) :
    (runLogOps ops (initState store0)).logs.length ≤ 100 ∧
    (runLogOps ops (initState store0)).logs = (histRun ops (0, [])).2.take 100 := by
  have h := runLogOps_invariant ops (initState store0) 0 [] (by rfl) (by rfl)
  refine ⟨?_, h.1⟩
  rw [h.1]
  simp [List.length_take]

/-! ### Flag lemmas: nothing below `syncAll` reads or writes `isRunning` -/

/-- Two states that agree on everything except possibly the single-flight
flag. -/
def coreEq (st st' : SyncState) : Prop :=
  st.logs = st'.logs ∧ st.store = st'.store ∧ st.clock = st'.clock

theorem coreEq_setFlag (st : SyncState) (b : Bool) :
    coreEq { st with isRunning := b } st :=
  ⟨rfl, rfl, rfl⟩

theorem log_core (st st' : SyncState) (m sev : String) (h : coreEq st st') :
    coreEq (log st m sev) (log st' m sev) := by
  obtain ⟨h1, h2, h3⟩ := h
  exact ⟨by simp [log, h1, h3], by simp [log, h2], by simp [log, h3]⟩

theorem processArticle_isRunning (env : Env) (st : SyncState) (article : Article)
    (source : Source) :
    (processArticle env st article source).1.isRunning = st.isRunning := by
  unfold processArticle
  by_cases hE : (st.store.filter (fun r => r.url == article.link)).isEmpty <;>
    cases hT : article.title <;>
      by_cases hI : env.insertFails article.link <;>
        simp [hE, hT, hI, log]

theorem processArticle_core (env : Env) (st st' : SyncState) (article : Article)
    (source : Source) (h : coreEq st st') :
    (processArticle env st article source).2 = (processArticle env st' article source).2 ∧
    coreEq (processArticle env st article source).1 (processArticle env st' article source).1 := by
  obtain ⟨h1, h2, h3⟩ := h
  unfold processArticle
  by_cases hE : (st.store.filter (fun r => r.url == article.link)).isEmpty <;>
    cases hT : article.title <;>
      by_cases hI : env.insertFails article.link <;>
        simp [hE, hT, hI, ← h2, coreEq, log, h1, h3]

theorem syncItems_isRunning (env : Env) (source : Source) (items : List Article) :
    ∀ (st : SyncState) (added processed : Nat),
    (syncItems env source items st added processed).1.isRunning = st.isRunning := by
  induction items with
  | nil => intro st added processed; rfl
  | cons article rest ih =>
    intro st added processed
    rw [syncItems]
    rcases hR : (processArticle env st article source).2.2 with e | wasAdded <;>
      simp only [hR] <;>
      simp [ih, log_isRunning, processArticle_isRunning]

theorem syncItems_core (env : Env) (source : Source) (items : List Article) :
    ∀ (st st' : SyncState) (added processed : Nat), coreEq st st' →
    (syncItems env source items st added processed).2 =
      (syncItems env source items st' added processed).2 ∧
    coreEq (syncItems env source items st added processed).1
      (syncItems env source items st' added processed).1 := by
  induction items with
  | nil => intro st st' added processed h; exact ⟨rfl, h⟩
  | cons article rest ih =>
    intro st st' added processed h
    have hPA := processArticle_core env st st' article source h
    rw [syncItems, syncItems]
    rcases hR : (processArticle env st article source).2.2 with e | wasAdded <;>
      rw [hPA.1] at hR <;> rw [hR] <;> rw [hPA.1.symm] at hR <;> simp only [hR]
    · have hlog := log_core _ _
        ("❌ Erreur article \"" ++ jsShow article.title ++ "\": " ++ e) "error" hPA.2
      have hrec := ih _ _ added processed hlog
      refine ⟨?_, hrec.2⟩
      simp only [hPA.1, hrec.1]
    · have hrec := ih _ _ (if wasAdded then added + 1 else added) (processed + 1) hPA.2
      refine ⟨?_, hrec.2⟩
      simp only [hPA.1, hrec.1]

/-! ### C10 : `syncSource` is not guarded by the single-flight flag -/

theorem syncSource_isRunning (env : Env) (st : SyncState) (source : Source) :
    (syncSource env st source).1.isRunning = st.isRunning := by
  unfold syncSource
  rcases hF : env.fetchFeed source.url with e | items <;>
    simp [hF, log_isRunning, syncItems_isRunning]

theorem syncSource_core (env : Env) (st st' : SyncState) (source : Source)
    (h : coreEq st st') :
    (syncSource env st source).2 = (syncSource env st' source).2 ∧
    coreEq (syncSource env st source).1 (syncSource env st' source).1 := by
  unfold syncSource
  have hlog := log_core st st' ("📥 Récupération du flux: " ++ source.sourceType) "info" h
  rcases hF : env.fetchFeed source.url with e | items <;> simp only [hF]
  · exact ⟨by trivial, log_core _ _ _ "error" hlog⟩
  · have hlog2 := log_core _ _
      ("📊 " ++ toString items.length ++ " articles trouvés pour " ++ source.sourceType)
      "info" hlog
    have hrec := syncItems_core env source items _ _ 0 0 hlog2
    rcases hA : syncItems env source items
        (log (log st ("📥 Récupération du flux: " ++ source.sourceType) "info")
          ("📊 " ++ toString items.length ++ " articles trouvés pour " ++ source.sourceType)
          "info") 0 0 with ⟨stA, trA, resA⟩
    rcases hB : syncItems env source items
        (log (log st' ("📥 Récupération du flux: " ++ source.sourceType) "info")
          ("📊 " ++ toString items.length ++ " articles trouvés pour " ++ source.sourceType)
          "info") 0 0 with ⟨stB, trB, resB⟩
    rw [hA, hB] at hrec
    obtain ⟨htr, hcore⟩ := hrec
    injection htr with h1 h2
    subst h1
    subst h2
    exact ⟨rfl, log_core _ _ _ "info" hcore⟩

/-- C10: a direct `syncSource` call is not guarded by the single-flight
flag: for every value `b` stored in `isRunning`, the call produces the same
operation trace (so the fetch, the lookups and the inserts all happen
regardless of the flag — the trace always begins with the feed fetch), the
same result, and the same logs, store and clock, and it leaves `isRunning`
exactly as it found it.  Only `syncAll` reads or sets the flag. -/
theorem c10_syncSource_unguarded (env : Env) (st : SyncState) (source : Source)
    (b : Bool) :
    (syncSource env { st with isRunning := b } source).2 =
      (syncSource env st source).2 ∧
    coreEq (syncSource env { st with isRunning := b } source).1
      (syncSource env st source).1 ∧
    (syncSource env { st with isRunning := b } source).1.isRunning = b ∧
    (syncSource env st source).1.isRunning = st.isRunning ∧
    (syncSource env st source).2.1.head? = some (Op.fetch source.url) := by
  have hc := syncSource_core env { st with isRunning := b } st source (coreEq_setFlag st b)
  refine ⟨hc.1, hc.2, ?_, syncSource_isRunning env st source, ?_⟩
  · rw [syncSource_isRunning]
  · unfold syncSource
    rcases hF : env.fetchFeed source.url with e | items <;> simp [hF]

/-! ### C8 : gate order inside `processArticle` (corrected) -/

/-- A record and an environment used for concrete runs: an existing stored
article at `https://x/a`, a fetch stub, and a never-failing insert. -/
def newsA : NewsData :=
  { title := "A", content := "c", summary := "s", url := "https://x/a",
    articleType := "hotel", establishmentType := "hotels", status := "published",
    featured := false, author := "La Revue", source := "src", pubDate := "d",
    views := 0, tags := [], imageUrl := none, city := none }

def envNoFail : Env :=
  { fetchFeed := fun _ => Except.ok [], insertFails := fun _ => false }

def artA : Article :=
  { title := some "T", link := "https://x/a", content := none, description := none,
    pubDate := "d", thumbnail := none, enclosureLink := none }

/-- C8 counterexample: for an item whose `url` is already stored, the
operation trace of `processArticle` is the store lookup alone — the mapping
step is never performed, so it is not performed before the lookup. -/
theorem c8_counterexample :
    (processArticle envNoFail
        { logs := [], isRunning := false, store := [newsA], clock := 0 }
        artA hotelSource).2.1 = [Op.lookup "https://x/a"] ∧
    Op.map "https://x/a" ∉
      (processArticle envNoFail
        { logs := [], isRunning := false, store := [newsA], clock := 0 }
        artA hotelSource).2.1 := by
  constructor
  · rfl
  · intro hmem
    rw [show (processArticle envNoFail
        { logs := [], isRunning := false, store := [newsA], clock := 0 }
        artA hotelSource).2.1 = [Op.lookup "https://x/a"] from rfl] at hmem
    simp at hmem

/-- C8 (amended): `processArticle` checks the Deduplication Gate first, for
every item: the operation trace always begins with the store lookup; an item
whose `url` is already stored is returned `false` with no mapping and no
state change; only when the `url` is absent is the Mapper applied, after the
lookup and before the insert attempt. -/
theorem c8_gate_before_map (env : Env) (st : SyncState) (article : Article)
    (source : Source) :
    (processArticle env st article source).2.1.head? = some (Op.lookup article.link) ∧
    ((st.store.filter (fun r => r.url == article.link)).isEmpty = false →
      processArticle env st article source = (st, [Op.lookup article.link], Except.ok false)) ∧
    ((st.store.filter (fun r => r.url == article.link)).isEmpty = true →
      ∀ t, article.title = some t →
        (processArticle env st article source).2.1 =
          [Op.lookup article.link, Op.map article.link, Op.insert article.link]) ∧
    ((st.store.filter (fun r => r.url == article.link)).isEmpty = true →
      article.title = none →
      (processArticle env st article source).2.1 = [Op.lookup article.link]) := by
  refine ⟨?_, ?_, ?_, ?_⟩
  · unfold processArticle
    by_cases hE : (st.store.filter (fun r => r.url == article.link)).isEmpty <;>
      cases hT : article.title <;>
        by_cases hI : env.insertFails article.link <;>
          simp [hE, hT, hI]
  · intro hE
    unfold processArticle
    simp [hE]
  · intro hE t hT
    unfold processArticle
    by_cases hI : env.insertFails article.link <;> simp [hE, hT, hI]
  · intro hE hT
    unfold processArticle
    simp [hE, hT]

/-- Witness for the amended C8 on a concrete absent item. -/
theorem c8_gate_before_map_witness :
    (((initState []).store.filter (fun r => r.url == artA.link)).isEmpty = true) ∧
    artA.title = some "T" ∧
    (processArticle envNoFail (initState []) artA hotelSource).2.1 =
      [Op.lookup artA.link, Op.map artA.link, Op.insert artA.link] :=
  ⟨by decide, by decide,
   (c8_gate_before_map envNoFail (initState []) artA hotelSource).2.2.1
     (by decide) "T" (by decide)⟩

/-! ### C1 : per-item isolation (corrected: `processed` skips failed items) -/

/-- Three-item feed whose second item has no title, so its mapping
(`article.title.trim()`) throws. -/
def artUn : Article :=
  { title := some "Un", link := "https://x/1", content := none, description := none,
    pubDate := "d", thumbnail := none, enclosureLink := none }

def artSansTitre : Article :=
  { title := none, link := "https://x/2", content := none, description := none,
    pubDate := "d", thumbnail := none, enclosureLink := none }

def artTrois : Article :=
  { title := some "Trois", link := "https://x/3", content := none, description := none,
    pubDate := "d", thumbnail := none, enclosureLink := none }

def envC1 : Env :=
  { fetchFeed := fun _ => Except.ok [artUn, artSansTitre, artTrois],
    insertFails := fun _ => false }

/-- C1 counterexample: with item 2 of 3 failing during mapping, the source
result is `added = 2, processed = 2` — the failed item is skipped by the
`processed++` that sits after the `await` in the `try`, so `processed` does
not reach 3 as the claim states. -/
theorem c1_counterexample :
    (syncSource envC1 (initState []) hotelSource).2.2 = Except.ok (2, 2) ∧
    (syncSource envC1 (initState []) hotelSource).2.2 ≠ Except.ok (2, 3) := by
  have h : (syncSource envC1 (initState []) hotelSource).2.2 = Except.ok (2, 2) := by rfl
  refine ⟨h, ?_⟩
  rw [h]
  intro hc
  injection hc with hp
  injection hp with h1 h2
  exact absurd h2 (by decide)

/-- C1 (amended): per-item isolation in `syncSource`, with the corrected
count: when one raw item fails — during mapping (a missing title, so
`article.title.trim()` throws) or during persistence (the store insert
fails) — on an item absent from the store, the failure is caught and logged
as two error events and the loop continues with the remaining items from
unchanged counters, so the failed item is counted neither in `added` nor in
`processed`; the mapping failure leaves only the gate lookup in the trace,
the persist failure leaves the lookup, the mapping and the attempted
insert. -/
theorem c1_item_isolation (env : Env) (st : SyncState) (source : Source)
    (bad : Article) (rest : List Article) (added processed : Nat)
    (h2 : (st.store.filter (fun r => r.url == bad.link)).isEmpty = true) :
    (bad.title = none →
      syncItems env source (bad :: rest) st added processed =
        ((syncItems env source rest
            (log (log st ("❌ Erreur traitement article: " ++ titleErrorMsg) "error")
              ("❌ Erreur article \"" ++ "undefined" ++ "\": " ++ titleErrorMsg) "error")
            added processed).1,
         Op.lookup bad.link ::
           (syncItems env source rest
            (log (log st ("❌ Erreur traitement article: " ++ titleErrorMsg) "error")
              ("❌ Erreur article \"" ++ "undefined" ++ "\": " ++ titleErrorMsg) "error")
            added processed).2.1,
         (syncItems env source rest
            (log (log st ("❌ Erreur traitement article: " ++ titleErrorMsg) "error")
              ("❌ Erreur article \"" ++ "undefined" ++ "\": " ++ titleErrorMsg) "error")
            added processed).2.2)) ∧
    (∀ t, bad.title = some t → env.insertFails bad.link = true →
      syncItems env source (bad :: rest) st added processed =
        ((syncItems env source rest
            (log (log st ("❌ Erreur traitement article: " ++ insertErrorMsg) "error")
              ("❌ Erreur article \"" ++ t ++ "\": " ++ insertErrorMsg) "error")
            added processed).1,
         Op.lookup bad.link :: Op.map bad.link :: Op.insert bad.link ::
           (syncItems env source rest
            (log (log st ("❌ Erreur traitement article: " ++ insertErrorMsg) "error")
              ("❌ Erreur article \"" ++ t ++ "\": " ++ insertErrorMsg) "error")
            added processed).2.1,
         (syncItems env source rest
            (log (log st ("❌ Erreur traitement article: " ++ insertErrorMsg) "error")
              ("❌ Erreur article \"" ++ t ++ "\": " ++ insertErrorMsg) "error")
            added processed).2.2)) := by
  constructor
  · intro h1
    have hPA : processArticle env st bad source =
        (log st ("❌ Erreur traitement article: " ++ titleErrorMsg) "error",
         [Op.lookup bad.link], Except.error titleErrorMsg) := by
      unfold processArticle
      simp [h1, h2]
    rw [syncItems, hPA]
    simp [jsShow, h1]
  · intro t hT hI
    have hPA : processArticle env st bad source =
        (log st ("❌ Erreur traitement article: " ++ insertErrorMsg) "error",
         [Op.lookup bad.link, Op.map bad.link, Op.insert bad.link],
         Except.error insertErrorMsg) := by
      unfold processArticle
      simp [hT, hI, h2]
    rw [syncItems, hPA]
    simp [jsShow, hT]

/-- Environment whose store insert fails exactly for `artUn`'s link. -/
def envC1insert : Env :=
  { fetchFeed := fun _ => Except.ok [],
    insertFails := fun u => u == "https://x/1" }

/-- Witness for the amended C1, exercising both failure modes: the missing
title (mapping failure) and the failing insert (persist failure). -/
theorem c1_item_isolation_witness :
    (((initState []).store.filter (fun r => r.url == artSansTitre.link)).isEmpty = true) ∧
    artSansTitre.title = none ∧
    syncItems envC1 hotelSource (artSansTitre :: [artTrois]) (initState []) 1 1 =
      ((syncItems envC1 hotelSource [artTrois]
          (log (log (initState []) ("❌ Erreur traitement article: " ++ titleErrorMsg) "error")
            ("❌ Erreur article \"" ++ "undefined" ++ "\": " ++ titleErrorMsg) "error")
          1 1).1,
       Op.lookup artSansTitre.link ::
         (syncItems envC1 hotelSource [artTrois]
          (log (log (initState []) ("❌ Erreur traitement article: " ++ titleErrorMsg) "error")
            ("❌ Erreur article \"" ++ "undefined" ++ "\": " ++ titleErrorMsg) "error")
          1 1).2.1,
       (syncItems envC1 hotelSource [artTrois]
          (log (log (initState []) ("❌ Erreur traitement article: " ++ titleErrorMsg) "error")
            ("❌ Erreur article \"" ++ "undefined" ++ "\": " ++ titleErrorMsg) "error")
          1 1).2.2) ∧
    (((initState []).store.filter (fun r => r.url == artUn.link)).isEmpty = true) ∧
    artUn.title = some "Un" ∧
    envC1insert.insertFails artUn.link = true ∧
    syncItems envC1insert hotelSource (artUn :: [artTrois]) (initState []) 0 0 =
      ((syncItems envC1insert hotelSource [artTrois]
          (log (log (initState []) ("❌ Erreur traitement article: " ++ insertErrorMsg) "error")
            ("❌ Erreur article \"" ++ "Un" ++ "\": " ++ insertErrorMsg) "error")
          0 0).1,
       Op.lookup artUn.link :: Op.map artUn.link :: Op.insert artUn.link ::
         (syncItems envC1insert hotelSource [artTrois]
          (log (log (initState []) ("❌ Erreur traitement article: " ++ insertErrorMsg) "error")
            ("❌ Erreur article \"" ++ "Un" ++ "\": " ++ insertErrorMsg) "error")
          0 0).2.1,
       (syncItems envC1insert hotelSource [artTrois]
          (log (log (initState []) ("❌ Erreur traitement article: " ++ insertErrorMsg) "error")
            ("❌ Erreur article \"" ++ "Un" ++ "\": " ++ insertErrorMsg) "error")
          0 0).2.2) :=
  ⟨by decide, by decide,
   (c1_item_isolation envC1 (initState []) hotelSource artSansTitre [artTrois] 1 1
     (by decide)).1 (by decide),
   by decide, by decide, by decide,
   (c1_item_isolation envC1insert (initState []) hotelSource artUn [artTrois] 0 0
     (by decide)).2 "Un" (by decide) (by decide)⟩

/-! ### C3 : idempotence of `syncAll` over an already-synchronized store -/

/-- `processArticle` on an already-stored link: the gate alone runs and the
item is skipped. -/
theorem processArticle_existing (env : Env) (st : SyncState) (article : Article)
    (source : Source)
    (h : (st.store.filter (fun r => r.url == article.link)).isEmpty = false) :
    processArticle env st article source =
      (st, [Op.lookup article.link], Except.ok false) := by
  unfold processArticle
  simp [h]

/-- The item loop over a feed all of whose links are already stored: no log,
no store change, `added` unchanged, `processed` incremented by the item
count, and the trace is one lookup per item. -/
theorem syncItems_all_existing (env : Env) (source : Source) (items : List Article) :
    ∀ (st : SyncState) (added processed : Nat),
    (∀ a ∈ items, (st.store.filter (fun r => r.url == a.link)).isEmpty = false) →
    syncItems env source items st added processed =
      (st, items.map (fun a => Op.lookup a.link), added, processed + items.length) := by
  induction items with
  | nil => intro st added processed _; simp [syncItems]
  | cons article rest ih =>
    intro st added processed hall
    have hPA := processArticle_existing env st article source
      (hall article (by simp))
    rw [syncItems, hPA]
    have hred : (if false = true then added + 1 else added) = added := rfl
    simp only [hred]
    rw [ih st added (processed + 1) (fun a ha => hall a (by simp [ha]))]
    simp
    omega

/-- Number of items the fetch collaborator returns for a source (0 on
failure). -/
def fetchedCount (env : Env) (s : Source) : Nat :=
  match env.fetchFeed s.url with
  | Except.ok items => items.length
  | Except.error _ => 0

/-- `syncSource` over a feed all of whose links are already stored: result
`(0, items.length)`, store and flag untouched. -/
theorem syncSource_all_existing (env : Env) (st : SyncState) (source : Source)
    (items : List Article)
    (hF : env.fetchFeed source.url = Except.ok items)
    (hall : ∀ a ∈ items, (st.store.filter (fun r => r.url == a.link)).isEmpty = false) :
    (syncSource env st source).2.2 = Except.ok (0, items.length) ∧
    (syncSource env st source).1.store = st.store ∧
    (syncSource env st source).1.isRunning = st.isRunning := by
  unfold syncSource
  simp only [hF]
  rw [syncItems_all_existing env source items _ 0 0
    (by intro a ha; rw [log_store, log_store]; exact hall a ha)]
  refine ⟨by simp, ?_, ?_⟩
  · simp [log_store]
  · simp [log_isRunning]

/-- The source loop over feeds all of whose links are already stored. -/
theorem syncSources_all_existing (env : Env) (srcs : List Source) :
    ∀ (st : SyncState) (ta tp : Nat),
    (∀ s ∈ srcs, ∃ items, env.fetchFeed s.url = Except.ok items ∧
       ∀ a ∈ items, (st.store.filter (fun r => r.url == a.link)).isEmpty = false) →
    (syncSources env srcs st ta tp).2.2 =
      Except.ok (ta, tp + (srcs.map (fetchedCount env)).sum) ∧
    (syncSources env srcs st ta tp).1.store = st.store ∧
    (syncSources env srcs st ta tp).1.isRunning = st.isRunning := by
  induction srcs with
  | nil => intro st ta tp _; simp [syncSources]
  | cons s rest ih =>
    intro st ta tp hyp
    obtain ⟨items, hF, hall⟩ := hyp s (by simp)
    rw [syncSources]
    have hss := syncSource_all_existing env (log st ("📡 Traitement de: " ++ s.url) "info")
      s items hF (by intro a ha; rw [log_store]; exact hall a ha)
    rcases hr : syncSource env (log st ("📡 Traitement de: " ++ s.url) "info") s
      with ⟨stA, trA, resA⟩
    rw [hr] at hss
    have hres : resA = Except.ok (0, items.length) := hss.1
    subst hres
    simp only []
    have hih := ih stA (ta + 0) (tp + items.length)
      (by
        intro s2 hs2
        obtain ⟨items2, hF2, hall2⟩ := hyp s2 (by simp [hs2])
        refine ⟨items2, hF2, ?_⟩
        intro a ha
        have : stA.store = st.store := by
          have := hss.2.1
          simpa [log_store] using this
        rw [this]
        exact hall2 a ha)
    refine ⟨?_, ?_, ?_⟩
    · rw [hih.1]
      simp [fetchedCount, hF, Nat.add_assoc]
    · rw [hih.2.1]
      have := hss.2.1
      simpa [log_store] using this
    · rw [hih.2.2]
      have := hss.2.2
      simpa [log_isRunning] using this

/-- C3: running `syncAll` when the store already contains a record for the
link of every fetched item (as after a successful previous run over the
same feeds) yields `added = 0` with `processed` the total item count — the
Gate's exact-match lookup on `url` skips insertion for every item — and
leaves the store unchanged, the flag back at false. -/
theorem c3_idempotent (env : Env) (st : SyncState) (items0 items1 : List Article)
    (hrun : st.isRunning = false)
    (h0 : env.fetchFeed hotelSource.url = Except.ok items0)
    (h1 : env.fetchFeed restaurantSource.url = Except.ok items1)
    (hall0 : ∀ a ∈ items0, (st.store.filter (fun r => r.url == a.link)).isEmpty = false)
    (hall1 : ∀ a ∈ items1, (st.store.filter (fun r => r.url == a.link)).isEmpty = false) :
    (syncAll env st).2.2 = Except.ok (some (0, items0.length + items1.length)) ∧
    (syncAll env st).1.store = st.store ∧
    (syncAll env st).1.isRunning = false := by
  unfold syncAll
  simp only [hrun, Bool.false_eq_true, if_false]
  have hsrcs := syncSources_all_existing env sources
    (log { st with isRunning := true } "🚀 Début de la synchronisation RSS globale" "info") 0 0
    (by
      intro s hs
      simp only [sources, List.mem_cons, List.not_mem_nil, or_false] at hs
      rcases hs with h | h
      · exact ⟨items0, by rw [h]; exact h0, by
          intro a ha; rw [log_store]; exact hall0 a ha⟩
      · exact ⟨items1, by rw [h]; exact h1, by
          intro a ha; rw [log_store]; exact hall1 a ha⟩)
  rcases hr : syncSources env sources
      (log { st with isRunning := true } "🚀 Début de la synchronisation RSS globale" "info") 0 0
    with ⟨stA, trA, resA⟩
  rw [hr] at hsrcs
  have htotal : (sources.map (fetchedCount env)).sum = items0.length + items1.length := by
    simp [sources, fetchedCount, hotelSource, restaurantSource] at *
    rw [show env.fetchFeed "https://larevuedeshotels.com/feed" = Except.ok items0 from h0,
        show env.fetchFeed "https://larevuedesrestaurants.com/feed" = Except.ok items1 from h1]
  have hres : resA = Except.ok (0, items0.length + items1.length) := by
    have := hsrcs.1
    rw [htotal] at this
    simpa using this
  subst hres
  simp only []
  refine ⟨by trivial, ?_, by trivial⟩
  rw [log_store]
  have := hsrcs.2.1
  simpa [log_store] using this

/-- Witness for C3: one already-stored item in the hotel feed, an empty
restaurant feed. -/
theorem c3_idempotent_witness :
    (({ logs := [], isRunning := false, store := [newsA], clock := 0 } : SyncState).isRunning
      = false) ∧
    (syncAll
      { fetchFeed := fun u => if u = hotelSource.url then Except.ok [artA] else Except.ok [],
        insertFails := fun _ => false }
      { logs := [], isRunning := false, store := [newsA], clock := 0 }).2.2 =
      Except.ok (some (0, [artA].length + ([] : List Article).length)) ∧
    (syncAll
      { fetchFeed := fun u => if u = hotelSource.url then Except.ok [artA] else Except.ok [],
        insertFails := fun _ => false }
      { logs := [], isRunning := false, store := [newsA], clock := 0 }).1.store = [newsA] :=
  ⟨rfl,
   (c3_idempotent
      { fetchFeed := fun u => if u = hotelSource.url then Except.ok [artA] else Except.ok [],
        insertFails := fun _ => false }
      { logs := [], isRunning := false, store := [newsA], clock := 0 }
      [artA] [] rfl (by simp [hotelSource]) (by simp [hotelSource, restaurantSource])
      (by decide) (by decide)).1,
   (c3_idempotent
      { fetchFeed := fun u => if u = hotelSource.url then Except.ok [artA] else Except.ok [],
        insertFails := fun _ => false }
      { logs := [], isRunning := false, store := [newsA], clock := 0 }
      [artA] [] rfl (by simp [hotelSource]) (by simp [hotelSource, restaurantSource])
      (by decide) (by decide)).2.1⟩

/-! ### C4 : fatal-to-run propagation of a source fetch failure -/

theorem syncSource_fetch_error (env : Env) (st : SyncState) (source : Source)
    (e : String) (hF : env.fetchFeed source.url = Except.error e) :
    syncSource env st source =
      (log (log st ("📥 Récupération du flux: " ++ source.sourceType) "info")
         ("❌ Erreur source " ++ source.sourceType ++ ": " ++ e) "error",
       [Op.fetch source.url], Except.error e) := by
  unfold syncSource
  simp [hF]

theorem syncSource_ok_shape (env : Env) (st : SyncState) (source : Source)
    (items : List Article) (hF : env.fetchFeed source.url = Except.ok items) :
    ∃ a p, (syncSource env st source).2.2 = Except.ok (a, p) := by
  unfold syncSource
  simp only [hF]
  exact ⟨_, _, rfl⟩

/-- C4: for every run started from an idle service, `isRunning` is false
after `syncAll` finishes on every path; if the first source's fetch fails,
the run performs only that one fetch (no lookup/insert, and the second
source is never fetched), logs the global failure event and rethrows the
error; if the first source succeeds and the second source's fetch fails,
the run likewise rethrows the error after logging the failure event. -/
theorem c4_fatal_to_run (env : Env) (st : SyncState) (h : st.isRunning = false) :
    (syncAll env st).1.isRunning = false ∧
    (∀ e, env.fetchFeed hotelSource.url = Except.error e →
      (syncAll env st).2.2 = Except.error e ∧
      (syncAll env st).2.1 = [Op.fetch hotelSource.url] ∧
      Op.fetch restaurantSource.url ∉ (syncAll env st).2.1 ∧
      ∃ ts, (syncAll env st).1.logs.head? =
        some { time := ts, message := "❌ Erreur globale: " ++ e, severity := "error" }) ∧
    (∀ e items, env.fetchFeed hotelSource.url = Except.ok items →
      env.fetchFeed restaurantSource.url = Except.error e →
      (syncAll env st).2.2 = Except.error e ∧
      ∃ ts, (syncAll env st).1.logs.head? =
        some { time := ts, message := "❌ Erreur globale: " ++ e, severity := "error" }) := by
  refine ⟨?_, ?_, ?_⟩
  · unfold syncAll
    simp only [h, Bool.false_eq_true, if_false]
    rcases hr : (syncSources env sources
        (log { st with isRunning := true } "🚀 Début de la synchronisation RSS globale" "info")
        0 0).2.2 with e | p
    · simp [hr]
    · rcases p with ⟨ta, tp⟩
      simp [hr]
  · intro e hF
    unfold syncAll
    simp only [h, Bool.false_eq_true, if_false]
    rw [show sources = [hotelSource, restaurantSource] from rfl, syncSources,
      syncSource_fetch_error env _ hotelSource e hF]
    simp only []
    refine ⟨by trivial, by trivial, by simp [hotelSource, restaurantSource], ?_⟩
    exact ⟨_, log_logs_head _ _ _⟩
  · intro e items hok hF
    unfold syncAll
    simp only [h, Bool.false_eq_true, if_false]
    rw [show sources = [hotelSource, restaurantSource] from rfl, syncSources]
    have hsh := syncSource_ok_shape env
      (log (log { st with isRunning := true }
        "🚀 Début de la synchronisation RSS globale" "info")
        ("📡 Traitement de: " ++ hotelSource.url) "info") hotelSource items hok
    rcases hr : syncSource env
        (log (log { st with isRunning := true }
          "🚀 Début de la synchronisation RSS globale" "info")
          ("📡 Traitement de: " ++ hotelSource.url) "info") hotelSource
      with ⟨stA, trA, resA⟩
    rw [hr] at hsh
    obtain ⟨a, p, hres⟩ := hsh
    have hres' : resA = Except.ok (a, p) := hres
    subst hres'
    simp only []
    rw [syncSources, syncSource_fetch_error env _ restaurantSource e hF]
    simp only []
    exact ⟨by trivial, _, log_logs_head _ _ _⟩

def envFail : Env :=
  { fetchFeed := fun _ => Except.error "boom", insertFails := fun _ => false }

/-- Witness for C4 with a failing first fetch. -/
theorem c4_fatal_to_run_witness :
    ((initState []).isRunning = false) ∧
    (envFail.fetchFeed hotelSource.url = Except.error "boom") ∧
    ((syncAll envFail (initState [])).2.2 = Except.error "boom" ∧
      (syncAll envFail (initState [])).2.1 = [Op.fetch hotelSource.url] ∧
      Op.fetch restaurantSource.url ∉ (syncAll envFail (initState [])).2.1 ∧
      ∃ ts, (syncAll envFail (initState [])).1.logs.head? =
        some { time := ts, message := "❌ Erreur globale: " ++ "boom",
               severity := "error" }) :=
  ⟨rfl, rfl, (c4_fatal_to_run envFail (initState []) rfl).2.1 "boom" rfl⟩

/-! ### C5 : `extractSummary` postcondition -/

theorem lastSpaceIdx_lt (l : List Char) : ∀ i, lastSpaceIdx l = some i → i < l.length := by
  induction l with
  | nil => intro i hi; simp [lastSpaceIdx] at hi
  | cons c cs ih =>
    intro i hi
    unfold lastSpaceIdx at hi
    rcases hcs : lastSpaceIdx cs with _ | j
    · rw [hcs] at hi
      by_cases hc : c == ' '
      · simp [hc] at hi
        subst hi
        simp
      · simp [hc] at hi
    · rw [hcs] at hi
      simp at hi
      subst hi
      have := ih j hcs
      simp
      omega

/-- C5: `summarize` postcondition.  Empty or absent input yields the
placeholder; with `t` the tag-stripped, trimmed input: when `|t| ≤ 200` the
result is `t` unchanged (no ellipsis); when `|t| > 200` the result is at
most 203 characters, ends with the ellipsis marker `...`, and equals the
200-character prefix backed up to the last space only when that space lies
beyond position 150 (strictly), otherwise the hard 200-character cut — in
each truncation case with `...` appended. -/
theorem c5_summarize (s : String) (h : s ≠ "") :
    extractSummary none = "Résumé à venir" ∧
    extractSummary (some "") = "Résumé à venir" ∧
    ((trimChars (stripTags s.data)).length ≤ 200 →
      extractSummary (some s) = String.mk (trimChars (stripTags s.data))) ∧
    (200 < (trimChars (stripTags s.data)).length →
      (extractSummary (some s)).data.length ≤ 203 ∧
      (∃ pre, (extractSummary (some s)).data = pre ++ "...".data) ∧
      (∀ i, lastSpaceIdx ((trimChars (stripTags s.data)).take 200) = some i →
        150 < i →
        extractSummary (some s) =
          String.mk (((trimChars (stripTags s.data)).take 200).take i) ++ "...") ∧
      (∀ i, lastSpaceIdx ((trimChars (stripTags s.data)).take 200) = some i →
        i ≤ 150 →
        extractSummary (some s) =
          String.mk ((trimChars (stripTags s.data)).take 200) ++ "...") ∧
      (lastSpaceIdx ((trimChars (stripTags s.data)).take 200) = none →
        extractSummary (some s) =
          String.mk ((trimChars (stripTags s.data)).take 200) ++ "...")) := by
  have hbody : extractSummary (some s) =
      (if (trimChars (stripTags s.data)).length ≤ 200
       then String.mk (trimChars (stripTags s.data))
       else
        match lastSpaceIdx ((trimChars (stripTags s.data)).take 200) with
        | some i =>
          if 150 < i
          then String.mk (((trimChars (stripTags s.data)).take 200).take i) ++ "..."
          else String.mk ((trimChars (stripTags s.data)).take 200) ++ "..."
        | none => String.mk ((trimChars (stripTags s.data)).take 200) ++ "...") := by
    simp only [extractSummary]
    rw [if_neg h]
  refine ⟨rfl, rfl, ?_, ?_⟩
  · intro hle
    rw [hbody, if_pos hle]
  · intro hgt
    have hnle : ¬ (trimChars (stripTags s.data)).length ≤ 200 := by omega
    have hcases : ∃ l : List Char,
        extractSummary (some s) = String.mk l ++ "..." ∧ l.length ≤ 200 := by
      rcases hls : lastSpaceIdx ((trimChars (stripTags s.data)).take 200) with _ | i
      · exact ⟨(trimChars (stripTags s.data)).take 200,
          by rw [hbody, if_neg hnle, hls],
          by simp [List.length_take]⟩
      · by_cases h150 : 150 < i
        · refine ⟨((trimChars (stripTags s.data)).take 200).take i,
            by rw [hbody, if_neg hnle, hls]; simp [h150], ?_⟩
          have := List.length_take i ((trimChars (stripTags s.data)).take 200)
          have h2 := List.length_take 200 (trimChars (stripTags s.data))
          omega
        · exact ⟨(trimChars (stripTags s.data)).take 200,
            by rw [hbody, if_neg hnle, hls]; simp [h150],
            by simp [List.length_take]⟩
    obtain ⟨l, hval, hllen⟩ := hcases
    refine ⟨?_, ?_, ?_, ?_, ?_⟩
    · have hdot : ("..." : String).data = ['.', '.', '.'] := rfl
      have hmk : (String.mk l).data = l := rfl
      rw [hval, String.data_append, hdot, hmk]
      simp only [List.length_append, List.length_cons, List.length_nil]
      omega
    · exact ⟨(String.mk l).data, by rw [hval, String.data_append]⟩
    · intro i hi h150
      rw [hbody, if_neg hnle, hi]
      simp [h150]
    · intro i hi h150
      rw [hbody, if_neg hnle, hi]
      simp [show ¬ 150 < i by omega]
    · intro hls
      rw [hbody, if_neg hnle, hls]

def longText : String :=
  String.mk (List.replicate 160 'a' ++ ' ' :: List.replicate 40 'b')

set_option maxRecDepth 40000 in
/-- Witness for C5 on a 201-character text whose last space before the cut
sits at position 160. -/
theorem c5_summarize_witness :
    (longText ≠ "") ∧
    (200 < (trimChars (stripTags longText.data)).length) ∧
    (lastSpaceIdx ((trimChars (stripTags longText.data)).take 200) = some 160) ∧
    (150 < 160) ∧
    extractSummary (some longText) =
      String.mk (((trimChars (stripTags longText.data)).take 200).take 160) ++ "..." :=
  ⟨by decide, by decide, by decide, by decide,
   ((c5_summarize longText (by decide)).2.2.2 (by decide)).2.2.1 160 (by decide) (by decide)⟩

/-! ### C7 : `extractCity` returns the first gazetteer match -/

/-- C7: `inferLocality` postcondition.  Absent or empty content yields no
tag; otherwise `extractCity` returns `c` exactly when `c` occurs as a
literal, case-sensitive substring of the tag-stripped text and every
gazetteer entry declared before `c` does not occur (so, when several city
names co-occur, the one declared earliest in `cities` wins regardless of
its position in the text); it returns `none` exactly when no gazetteer
entry occurs. -/
theorem c7_inferLocality (s : String) (h : s ≠ "") :
    extractCity none = none ∧
    extractCity (some "") = none ∧
    (∀ c, extractCity (some s) = some c ↔
      (containsSub c.data (stripTags s.data) = true ∧
       ∃ l₁ l₂, cities = l₁ ++ c :: l₂ ∧
         ∀ c' ∈ l₁, containsSub c'.data (stripTags s.data) = false)) ∧
    (extractCity (some s) = none ↔
      ∀ c ∈ cities, containsSub c.data (stripTags s.data) = false) := by
  have hdef : extractCity (some s) =
      cities.find? (fun city => containsSub city.data (stripTags s.data)) := by
    simp [extractCity, h]
  refine ⟨rfl, rfl, ?_, ?_⟩
  · intro c
    rw [hdef, List.find?_eq_some]
    simp [Bool.not_eq_true']
  · rw [hdef, List.find?_eq_none]
    simp [Bool.not_eq_true]

/-- Witness for C7: "Lyon" appears first in the text, but "Paris" is
declared first in the gazetteer. -/
theorem c7_inferLocality_witness :
    (("Visite de Lyon et de Paris" : String) ≠ "") ∧
    (extractCity (some "Visite de Lyon et de Paris") = some "Paris" ↔
      (containsSub "Paris".data (stripTags ("Visite de Lyon et de Paris" : String).data) = true ∧
       ∃ l₁ l₂, cities = l₁ ++ "Paris" :: l₂ ∧
         ∀ c' ∈ l₁,
           containsSub c'.data (stripTags ("Visite de Lyon et de Paris" : String).data)
             = false)) :=
  ⟨by decide, (c7_inferLocality "Visite de Lyon et de Paris" (by decide)).2.2.1 "Paris"⟩

/-! ### C6 : `cleanContent` machinery -/

theorem findCI_step_fail (pat : List Char) (a : Char) (l : List Char)
    (h : ciStarts pat (a :: l) = false) : findCI pat (a :: l) = findCI pat l := by
  simp [findCI, h]

theorem removeBlocksAux_nil (o cl : List Char) (bd : Bool) (fuel : Nat) :
    removeBlocksAux o cl bd fuel [] = [] := by
  cases fuel <;> rfl

theorem removeBlocksAux_step_fail (o cl : List Char) (bd : Bool) (fuel : Nat)
    (a : Char) (cs : List Char) (h : ciStarts o (a :: cs) = false) :
    removeBlocksAux o cl bd (fuel + 1) (a :: cs) =
      a :: removeBlocksAux o cl bd fuel cs := by
  simp [removeBlocksAux, h]

theorem removeBlocksAux_step_match (o cl : List Char) (bd : Bool) (fuel : Nat)
    (a : Char) (cs rest : List Char)
    (hstart : ciStarts o (a :: cs) = true)
    (hbound : (if bd then
        (match List.drop o.length (a :: cs) with
         | [] => true
         | d :: _ => !(isWordChar d))
      else true) = true)
    (hfind : findCI cl (List.drop o.length (a :: cs)) = some rest) :
    removeBlocksAux o cl bd (fuel + 1) (a :: cs) =
      removeBlocksAux o cl bd fuel rest := by
  simp [removeBlocksAux, hstart, hbound, hfind]

/-- Executable check: no case-insensitive occurrence of `pat` starts at any
position of `l`. -/
def noMatch (pat : List Char) : List Char → Bool
  | [] => !(ciStarts pat [])
  | c :: cs => !(ciStarts pat (c :: cs)) && noMatch pat cs

/-- Executable check: no case-insensitive occurrence of `pat` starts at any
of the first `k` positions of `l`. -/
def noMatchBefore (pat : List Char) : Nat → List Char → Bool
  | 0, _ => true
  | _ + 1, [] => true
  | k + 1, c :: cs => !(ciStarts pat (c :: cs)) && noMatchBefore pat k cs

/-- A text in which the pattern never occurs passes through the regex
replacement unchanged. -/
theorem removeBlocksAux_id (o cl : List Char) (bd : Bool) :
    ∀ (l : List Char) (fuel : Nat), l.length ≤ fuel → noMatch o l = true →
    removeBlocksAux o cl bd fuel l = l := by
  intro l
  induction l with
  | nil => intro fuel _ _; exact removeBlocksAux_nil _ _ _ _
  | cons a as ih =>
    intro fuel hf h
    cases fuel with
    | zero => simp at hf
    | succ f =>
      simp only [noMatch, Bool.and_eq_true, Bool.not_eq_true'] at h
      rw [removeBlocksAux_step_fail _ _ _ _ _ _ h.1,
        ih f (by simpa using hf) h.2]

theorem removeBlocks_id (o cl : List Char) (bd : Bool) (l : List Char)
    (h : noMatch o l = true) : removeBlocks o cl bd l = l :=
  removeBlocksAux_id o cl bd l l.length (Nat.le_refl _) h

/-- The scan walks through a prefix in which no occurrence of the pattern
starts (occurrences may start later, even overlapping the boundary is
excluded by the hypothesis, which reads the concatenated text). -/
theorem removeBlocksAux_skip (o cl : List Char) (bd : Bool) :
    ∀ (p rest : List Char) (fuel : Nat),
    noMatchBefore o p.length (p ++ rest) = true →
    removeBlocksAux o cl bd (p.length + fuel) (p ++ rest) =
      p ++ removeBlocksAux o cl bd fuel rest := by
  intro p
  induction p with
  | nil => intro rest fuel _; simp
  | cons a as ih =>
    intro rest fuel h
    rw [List.cons_append] at h
    simp only [List.length_cons, noMatchBefore, Bool.and_eq_true, Bool.not_eq_true'] at h
    have harith : (a :: as).length + fuel = (as.length + fuel) + 1 := by
      simp [List.length_cons]
      omega
    rw [harith, List.cons_append,
      removeBlocksAux_step_fail _ _ _ _ _ _ h.1,
      ih rest fuel h.2, List.cons_append]

/-- The close-tag search walks through a region in which no occurrence of
the close tag starts. -/
theorem findCI_skip (pat : List Char) :
    ∀ (body rest : List Char),
    noMatchBefore pat body.length (body ++ rest) = true →
    findCI pat (body ++ rest) = findCI pat rest := by
  intro body
  induction body with
  | nil => intro rest _; rfl
  | cons a as ih =>
    intro rest h
    rw [List.cons_append] at h
    simp only [List.length_cons, noMatchBefore, Bool.and_eq_true, Bool.not_eq_true'] at h
    rw [List.cons_append, findCI_step_fail _ _ _ h.1]
    exact ih rest h.2

/-- The script regex removes exactly the `<script>…</script>` span,
preserving the surrounding text verbatim, whenever no other `<script` match
starts in the prefix, no `</script>` occurs before the written close tag,
and no `<script` occurs in the suffix. -/
theorem removeBlocks_script (p body s : List Char)
    (hp : noMatchBefore scriptOpen p.length
      (p ++ ('<' :: 's' :: 'c' :: 'r' :: 'i' :: 'p' :: 't' :: '>' ::
        (body ++ ('<' :: '/' :: 's' :: 'c' :: 'r' :: 'i' :: 'p' :: 't' :: '>' :: s)))) = true)
    (hclose : noMatchBefore scriptClose (body.length + 1)
      ('>' :: (body ++ ('<' :: '/' :: 's' :: 'c' :: 'r' :: 'i' :: 'p' :: 't' :: '>' :: s))) = true)
    (hs : noMatch scriptOpen s = true) :
    removeBlocks scriptOpen scriptClose true
      (p ++ ('<' :: 's' :: 'c' :: 'r' :: 'i' :: 'p' :: 't' :: '>' ::
        (body ++ ('<' :: '/' :: 's' :: 'c' :: 'r' :: 'i' :: 'p' :: 't' :: '>' :: s)))) = p ++ s := by
  have hfind : findCI scriptClose
      (List.drop scriptOpen.length
        ('<' :: 's' :: 'c' :: 'r' :: 'i' :: 'p' :: 't' :: '>' ::
          (body ++ ('<' :: '/' :: 's' :: 'c' :: 'r' :: 'i' :: 'p' :: 't' :: '>' :: s)))) = some s := by
    show findCI scriptClose
      (('>' :: body) ++ ('<' :: '/' :: 's' :: 'c' :: 'r' :: 'i' :: 'p' :: 't' :: '>' :: s)) = some s
    rw [findCI_skip scriptClose ('>' :: body) _ hclose]
    rfl
  have hstep := removeBlocksAux_step_match scriptOpen scriptClose true
    (16 + body.length + s.length) '<'
    ('s' :: 'c' :: 'r' :: 'i' :: 'p' :: 't' :: '>' ::
      (body ++ ('<' :: '/' :: 's' :: 'c' :: 'r' :: 'i' :: 'p' :: 't' :: '>' :: s)))
    s rfl rfl hfind
  unfold removeBlocks
  rw [show (p ++ ('<' :: 's' :: 'c' :: 'r' :: 'i' :: 'p' :: 't' :: '>' ::
      (body ++ ('<' :: '/' :: 's' :: 'c' :: 'r' :: 'i' :: 'p' :: 't' :: '>' :: s)))).length =
      p.length + ((16 + body.length + s.length) + 1) from by
    simp [List.length_append]
    omega]
  rw [removeBlocksAux_skip scriptOpen scriptClose true p _ _ hp, hstep,
    removeBlocksAux_id scriptOpen scriptClose true s (16 + body.length + s.length)
      (by omega) hs]

/-- The style regex removes exactly the `<style>…</style>` span under the
analogous occurrence conditions. -/
theorem removeBlocks_style (p body s : List Char)
    (hp : noMatchBefore styleOpen p.length
      (p ++ ('<' :: 's' :: 't' :: 'y' :: 'l' :: 'e' :: '>' ::
        (body ++ ('<' :: '/' :: 's' :: 't' :: 'y' :: 'l' :: 'e' :: '>' :: s)))) = true)
    (hclose : noMatchBefore styleClose (body.length + 1)
      ('>' :: (body ++ ('<' :: '/' :: 's' :: 't' :: 'y' :: 'l' :: 'e' :: '>' :: s))) = true)
    (hs : noMatch styleOpen s = true) :
    removeBlocks styleOpen styleClose true
      (p ++ ('<' :: 's' :: 't' :: 'y' :: 'l' :: 'e' :: '>' ::
        (body ++ ('<' :: '/' :: 's' :: 't' :: 'y' :: 'l' :: 'e' :: '>' :: s)))) = p ++ s := by
  have hfind : findCI styleClose
      (List.drop styleOpen.length
        ('<' :: 's' :: 't' :: 'y' :: 'l' :: 'e' :: '>' ::
          (body ++ ('<' :: '/' :: 's' :: 't' :: 'y' :: 'l' :: 'e' :: '>' :: s)))) = some s := by
    show findCI styleClose
      (('>' :: body) ++ ('<' :: '/' :: 's' :: 't' :: 'y' :: 'l' :: 'e' :: '>' :: s)) = some s
    rw [findCI_skip styleClose ('>' :: body) _ hclose]
    rfl
  have hstep := removeBlocksAux_step_match styleOpen styleClose true
    (14 + body.length + s.length) '<'
    ('s' :: 't' :: 'y' :: 'l' :: 'e' :: '>' ::
      (body ++ ('<' :: '/' :: 's' :: 't' :: 'y' :: 'l' :: 'e' :: '>' :: s)))
    s rfl rfl hfind
  unfold removeBlocks
  rw [show (p ++ ('<' :: 's' :: 't' :: 'y' :: 'l' :: 'e' :: '>' ::
      (body ++ ('<' :: '/' :: 's' :: 't' :: 'y' :: 'l' :: 'e' :: '>' :: s)))).length =
      p.length + ((14 + body.length + s.length) + 1) from by
    simp [List.length_append]
    omega]
  rw [removeBlocksAux_skip styleOpen styleClose true p _ _ hp, hstep,
    removeBlocksAux_id styleOpen styleClose true s (14 + body.length + s.length)
      (by omega) hs]

/-- The comment regex removes exactly the `<!--…-->` span under the
analogous occurrence conditions. -/
theorem removeBlocks_comment (p body s : List Char)
    (hp : noMatchBefore commentOpen p.length
      (p ++ ('<' :: '!' :: '-' :: '-' :: (body ++ ('-' :: '-' :: '>' :: s)))) = true)
    (hclose : noMatchBefore commentClose body.length
      (body ++ ('-' :: '-' :: '>' :: s)) = true)
    (hs : noMatch commentOpen s = true) :
    removeBlocks commentOpen commentClose false
      (p ++ ('<' :: '!' :: '-' :: '-' :: (body ++ ('-' :: '-' :: '>' :: s)))) = p ++ s := by
  have hfind : findCI commentClose
      (List.drop commentOpen.length
        ('<' :: '!' :: '-' :: '-' :: (body ++ ('-' :: '-' :: '>' :: s)))) = some s := by
    show findCI commentClose (body ++ ('-' :: '-' :: '>' :: s)) = some s
    rw [findCI_skip commentClose body _ hclose]
    rfl
  have hstep := removeBlocksAux_step_match commentOpen commentClose false
    (6 + body.length + s.length) '<'
    ('!' :: '-' :: '-' :: (body ++ ('-' :: '-' :: '>' :: s)))
    s rfl rfl hfind
  unfold removeBlocks
  rw [show (p ++ ('<' :: '!' :: '-' :: '-' :: (body ++ ('-' :: '-' :: '>' :: s)))).length =
      p.length + ((6 + body.length + s.length) + 1) from by
    simp [List.length_append]
    omega]
  rw [removeBlocksAux_skip commentOpen commentClose false p _ _ hp, hstep,
    removeBlocksAux_id commentOpen commentClose false s (6 + body.length + s.length)
      (by omega) hs]

/-- C6: `sanitize` postcondition.  Empty or absent input returns the
`Contenu à venir` placeholder; otherwise script blocks, style blocks and
comment blocks are removed whole (matched by tag pairs; the comparison is
case-insensitive by construction of `ciEq`), preserving all surrounding
text — arbitrary HTML included — verbatim, followed by a trim.  Each
removal conjunct quantifies over every prefix, body and suffix in which the
removed construct itself does not occur elsewhere (`noMatch`/`noMatchBefore`
hypotheses: no earlier open-tag occurrence, no premature close tag inside
the body, no open tag in the suffix or for the other two passes); in
particular an input containing `<script>…</script>` anywhere — e.g. after
other markup such as `<p>…</p>` — has that entire block removed. -/
theorem c6_sanitize :
    cleanContent none = "Contenu à venir" ∧
    cleanContent (some "") = "Contenu à venir" ∧
    (∀ p body s : String,
      noMatchBefore scriptOpen p.data.length
        (p.data ++ ('<' :: 's' :: 'c' :: 'r' :: 'i' :: 'p' :: 't' :: '>' ::
          (body.data ++ ('<' :: '/' :: 's' :: 'c' :: 'r' :: 'i' :: 'p' :: 't' :: '>' ::
            s.data)))) = true →
      noMatchBefore scriptClose (body.data.length + 1)
        ('>' :: (body.data ++ ('<' :: '/' :: 's' :: 'c' :: 'r' :: 'i' :: 'p' :: 't' :: '>' ::
          s.data))) = true →
      noMatch scriptOpen s.data = true →
      noMatch styleOpen (p.data ++ s.data) = true →
      noMatch commentOpen (p.data ++ s.data) = true →
      cleanContent (some (p ++ "<script>" ++ body ++ "</script>" ++ s)) =
        String.mk (trimChars ((p ++ s).data))) ∧
    (∀ p body s : String,
      noMatch scriptOpen
        (p.data ++ ('<' :: 's' :: 't' :: 'y' :: 'l' :: 'e' :: '>' ::
          (body.data ++ ('<' :: '/' :: 's' :: 't' :: 'y' :: 'l' :: 'e' :: '>' ::
            s.data)))) = true →
      noMatchBefore styleOpen p.data.length
        (p.data ++ ('<' :: 's' :: 't' :: 'y' :: 'l' :: 'e' :: '>' ::
          (body.data ++ ('<' :: '/' :: 's' :: 't' :: 'y' :: 'l' :: 'e' :: '>' ::
            s.data)))) = true →
      noMatchBefore styleClose (body.data.length + 1)
        ('>' :: (body.data ++ ('<' :: '/' :: 's' :: 't' :: 'y' :: 'l' :: 'e' :: '>' ::
          s.data))) = true →
      noMatch styleOpen s.data = true →
      noMatch commentOpen (p.data ++ s.data) = true →
      cleanContent (some (p ++ "<style>" ++ body ++ "</style>" ++ s)) =
        String.mk (trimChars ((p ++ s).data))) ∧
    (∀ p body s : String,
      noMatch scriptOpen
        (p.data ++ ('<' :: '!' :: '-' :: '-' ::
          (body.data ++ ('-' :: '-' :: '>' :: s.data)))) = true →
      noMatch styleOpen
        (p.data ++ ('<' :: '!' :: '-' :: '-' ::
          (body.data ++ ('-' :: '-' :: '>' :: s.data)))) = true →
      noMatchBefore commentOpen p.data.length
        (p.data ++ ('<' :: '!' :: '-' :: '-' ::
          (body.data ++ ('-' :: '-' :: '>' :: s.data)))) = true →
      noMatchBefore commentClose body.data.length
        (body.data ++ ('-' :: '-' :: '>' :: s.data)) = true →
      noMatch commentOpen s.data = true →
      cleanContent (some (p ++ "<!--" ++ body ++ "-->" ++ s)) =
        String.mk (trimChars ((p ++ s).data))) := by
  have hclean : ∀ t : String, t ≠ "" → cleanContent (some t) = cleanContentStr t := by
    intro t ht
    simp [cleanContent, ht]
  refine ⟨rfl, rfl, ?_, ?_, ?_⟩
  · intro p body s hp hcl hs hstyle hcomment
    have hne : (p ++ "<script>" ++ body ++ "</script>" ++ s) ≠ "" := by
      intro hcon
      have hd := congrArg String.data hcon
      simp [String.data_append] at hd
    rw [hclean _ hne]
    unfold cleanContentStr
    rw [show (p ++ "<script>" ++ body ++ "</script>" ++ s).data =
        p.data ++ ('<' :: 's' :: 'c' :: 'r' :: 'i' :: 'p' :: 't' :: '>' ::
          (body.data ++ ('<' :: '/' :: 's' :: 'c' :: 'r' :: 'i' :: 'p' :: 't' :: '>' ::
            s.data))) from by
      simp only [String.data_append, List.append_assoc]
      rfl]
    rw [removeBlocks_script p.data body.data s.data hp hcl hs,
      removeBlocks_id styleOpen styleClose true _ hstyle,
      removeBlocks_id commentOpen commentClose false _ hcomment,
      String.data_append]
  · intro p body s hsc hp hcl hs hcm
    have hne : (p ++ "<style>" ++ body ++ "</style>" ++ s) ≠ "" := by
      intro hcon
      have hd := congrArg String.data hcon
      simp [String.data_append] at hd
    rw [hclean _ hne]
    unfold cleanContentStr
    rw [show (p ++ "<style>" ++ body ++ "</style>" ++ s).data =
        p.data ++ ('<' :: 's' :: 't' :: 'y' :: 'l' :: 'e' :: '>' ::
          (body.data ++ ('<' :: '/' :: 's' :: 't' :: 'y' :: 'l' :: 'e' :: '>' ::
            s.data))) from by
      simp only [String.data_append, List.append_assoc]
      rfl]
    rw [removeBlocks_id scriptOpen scriptClose true _ hsc,
      removeBlocks_style p.data body.data s.data hp hcl hs,
      removeBlocks_id commentOpen commentClose false _ hcm,
      String.data_append]
  · intro p body s hsc hst hp hcl hs
    have hne : (p ++ "<!--" ++ body ++ "-->" ++ s) ≠ "" := by
      intro hcon
      have hd := congrArg String.data hcon
      simp [String.data_append] at hd
    rw [hclean _ hne]
    unfold cleanContentStr
    rw [show (p ++ "<!--" ++ body ++ "-->" ++ s).data =
        p.data ++ ('<' :: '!' :: '-' :: '-' ::
          (body.data ++ ('-' :: '-' :: '>' :: s.data))) from by
      simp only [String.data_append, List.append_assoc]
      rfl]
    rw [removeBlocks_id scriptOpen scriptClose true _ hsc,
      removeBlocks_id styleOpen styleClose true _ hst,
      removeBlocks_comment p.data body.data s.data hp hcl hs,
      String.data_append]

/-- Witness for C6 at the specification's own scenario: a script block
after other markup, `<p>Hi</p><script>evil()</script>`. -/
theorem c6_sanitize_witness :
    noMatchBefore scriptOpen ("<p>Hi</p>" : String).data.length
      (("<p>Hi</p>" : String).data ++ ('<' :: 's' :: 'c' :: 'r' :: 'i' :: 'p' :: 't' :: '>' ::
        (("evil()" : String).data ++ ('<' :: '/' :: 's' :: 'c' :: 'r' :: 'i' :: 'p' :: 't' :: '>' ::
          ("" : String).data)))) = true ∧
    noMatchBefore scriptClose (("evil()" : String).data.length + 1)
      ('>' :: (("evil()" : String).data ++ ('<' :: '/' :: 's' :: 'c' :: 'r' :: 'i' :: 'p' :: 't' :: '>' ::
        ("" : String).data))) = true ∧
    noMatch scriptOpen ("" : String).data = true ∧
    noMatch styleOpen (("<p>Hi</p>" : String).data ++ ("" : String).data) = true ∧
    noMatch commentOpen (("<p>Hi</p>" : String).data ++ ("" : String).data) = true ∧
    cleanContent (some ("<p>Hi</p>" ++ "<script>" ++ "evil()" ++ "</script>" ++ "")) =
      String.mk (trimChars (("<p>Hi</p>" ++ "" : String).data)) :=
  ⟨by decide, by decide, by decide, by decide, by decide,
   c6_sanitize.2.2.1 "<p>Hi</p>" "evil()" ""
     (by decide) (by decide) (by decide) (by decide) (by decide)⟩

end RSSync
